import Mathlib

/-!
Shallow embedding of the `LocalEmbeddingsController` from
`src/vscode/test/e2e/helpers.ts` (the embedded controller source,
lines 218-632): the local-embeddings controller that manages the
lifecycle of the external cody-engine process, per-repository indexing
state, and the UI-facing status model.

Modelling conventions:
- JavaScript strings are `String`; string truthiness (`if (s)`) is
  modelled as `s != ""`.
- `undefined`/`null` option fields are `Option _`.  The strict
  equality `token === this.accessToken` between a `string | null`
  argument and a `string | undefined` field is false whenever either
  side is non-string, which `tokenStrictEq` reproduces.
- Engine responses and spawn outcomes are inputs to each operation
  (`Except String _`): the controller is deterministic given them.
- Asynchronous effects are collapsed to their sequential outcome; the
  events and requests an operation emits are collected in `Effects`.
  The deferred reload scheduled by the `Done` notification handler is
  counted in `Effects.reloadsScheduled`; when such a reload later
  runs it is one `eagerlyLoad` step (one `embeddings/load` request
  and the events that routine emits).
-/

/-- Per-repository load state (`interface RepoState`, helpers.ts:266-270). -/
structure RepoState where
  indexable : Bool
  isGit : Bool
  hasIndex : Bool
deriving Repr, DecidableEq

/-- The `lastRepo` record: most recent load attempt and its outcome
(helpers.ts:285). -/
structure LastRepo where
  path : String
  loadResult : Bool
deriving Repr, DecidableEq

/-- A VSCode status bar item as the controller mutates it: text,
warning background, tooltip, visibility. -/
structure StatusBarItem where
  text : String := ""
  warning : Bool := false
  tooltip : String := ""
  visible : Bool := false
deriving Repr, DecidableEq

/-- Requests the controller sends to the cody-engine process. -/
inductive EngineRequest where
  | initReq
  | setTokenReq (token : String)
  | loadReq (path : String)
  | indexReq (path : String) (model : String) (dimension : Nat)
  | queryReq (q : String)
deriving Repr, DecidableEq

/-- Payloads of an `embeddings/progress` engine message
(`Progress {numItems, totalItems, currentPath}`, `Error`, the literal
string `Done`, or anything else). -/
inductive EngineNotice where
  | progress (numItems totalItems : Nat) (currentPath : String)
  | engineError (message : String)
  | done
  | unknown (payload : String)
deriving Repr, DecidableEq

/-- Observable effects of one controller operation: `statusEmitter`
fires, `changeEmitter` fires, engine requests issued, spawn attempts
started, deferred post-index reloads scheduled, and information
messages shown for unrecognized payloads. -/
structure Effects where
  statusEvents : Nat := 0
  controllerEvents : Nat := 0
  spawns : Nat := 0
  reloadsScheduled : Nat := 0
  infoMessages : Nat := 0
  requests : List EngineRequest := []
deriving Repr, DecidableEq

/-- Sequential composition of effects. -/
def Effects.merge (a b : Effects) : Effects :=
  { statusEvents := a.statusEvents + b.statusEvents
    controllerEvents := a.controllerEvents + b.controllerEvents
    spawns := a.spawns + b.spawns
    reloadsScheduled := a.reloadsScheduled + b.reloadsScheduled
    infoMessages := a.infoMessages + b.infoMessages
    requests := a.requests ++ b.requests }

instance {ε α : Type} [DecidableEq ε] [DecidableEq α] :
    DecidableEq (Except ε α) := fun a b =>
  match a, b with
  | .ok x, .ok y =>
    if h : x = y then .isTrue (by rw [h]) else .isFalse (by simp [h])
  | .error x, .error y =>
    if h : x = y then .isTrue (by rw [h]) else .isFalse (by simp [h])
  | .ok _, .error _ => .isFalse (by simp)
  | .error _, .ok _ => .isFalse (by simp)

/-- Mutable state of `LocalEmbeddingsController` (helpers.ts:280-289),
plus the constant configuration fields `model` and `endpoint`
(helpers.ts:304-305).  `service` is the memoized spawn promise: `none`
when never requested, otherwise the settled outcome of the one
`spawnAndBindService` call. -/
structure Ctrl where
  model : String := "openai/text-embedding-ada-002"
  service : Option (Except String Unit) := none
  serviceStarted : Bool := false
  accessToken : Option String := none
  endpointIsDotcom : Bool := false
  statusBar : Option StatusBarItem := none
  lastRepo : Option LastRepo := none
  repoState : List (String × RepoState) := []
  pathBeingIndexed : Option String := none
deriving Repr, DecidableEq

/-- Result of one controller operation: the new state, the effects
emitted, and the value returned to the caller. -/
structure Out (α : Type) where
  ctrl : Ctrl
  eff : Effects
  ret : α

/-- `Map.get` on the `repoState` association list. -/
def getEntry (m : List (String × RepoState)) (k : String) : Option RepoState :=
  match m with
  | [] => none
  | (k0, v0) :: rest => if k0 == k then some v0 else getEntry rest k

/-- `Map.set` on the `repoState` association list: replace the entry
for `k` if present, else append. -/
def setEntry (m : List (String × RepoState)) (k : String) (v : RepoState) :
    List (String × RepoState) :=
  match m with
  | [] => [(k, v)]
  | (k0, v0) :: rest =>
    if k0 == k then (k, v) :: rest else (k0, v0) :: setEntry rest k v

/-- JavaScript `a || b` for an optional string `a` ("" is falsy). -/
def jsOr (a : Option String) (b : String) : String :=
  match a with
  | some s => if s == "" then b else s
  | none => b

/-- JavaScript `token || undefined` (helpers.ts:345). -/
def jsOrUndefined (a : Option String) : Option String :=
  match a with
  | some s => if s == "" then none else some s
  | none => none

/-- JavaScript strict equality `token === accessToken` between a
`string | null` and a `string | undefined`: true only when both are
the same string (`null === undefined` is false). -/
def tokenStrictEq (tok acc : Option String) : Bool :=
  match tok, acc with
  | some a, some b => a == b
  | _, _ => false

/-- `getService` (helpers.ts:352-357): memoize the one
`spawnAndBindService` promise.  The assignment
`this.service = this.spawnAndBindService(...)` happens synchronously
with the call, so the settled outcome — success or rejection — is
stored; nothing ever resets `this.service`.  On a fresh spawn that
succeeds, `spawnAndBindService` (helpers.ts:359-449) issues
`embeddings/initialize`, then `embeddings/set-token` when a token is
known, sets `serviceStarted`, and fires `changeEmitter`.  On a
failing spawn the rejection is stored; requests that may have been
issued before the failure are not tracked. -/
def getService (c : Ctrl) (spawnOutcome : Except String Unit) :
    Out (Except String Unit) :=
  match c.service with
  | some r => ⟨c, {}, r⟩
  | none =>
    match spawnOutcome with
    | .ok _ =>
      ⟨{ c with service := some spawnOutcome, serviceStarted := true },
       { spawns := 1, controllerEvents := 1,
         requests := [.initReq] ++
           (match c.accessToken with
            | some t => if t != "" then [.setTokenReq t] else []
            | none => []) },
       spawnOutcome⟩
    | .error _ =>
      ⟨{ c with service := some spawnOutcome }, { spawns := 1 }, spawnOutcome⟩

/-- Exact error message recognized as "git repository without a
remote" (helpers.ts:593). -/
def noRemoteErrorMessage : String :=
  "repository does not have a default fetch URL, so can" ++
    String.singleton (Char.ofNat 39) ++ "t be named for an index"

/-- The regex `/does not appear to be a git repository/`
(helpers.ts:596); with no anchors, `.test` is substring search. -/
def notAGitRepositoryPattern : String :=
  "does not appear to be a git repository"

/-- Whether `pat` occurs as a prefix of `l`. -/
def isPre : List Char → List Char → Bool
  | [], _ => true
  | _ :: _, [] => false
  | a :: as, b :: bs => a == b && isPre as bs

/-- Whether `pat` occurs as a contiguous substring of `l`. -/
def hasSubAux (pat : List Char) : List Char → Bool
  | [] => isPre pat []
  | b :: bs => isPre pat (b :: bs) || hasSubAux pat bs

/-- Unanchored regex-style test of `pat` against `s`. -/
def hasSub (s pat : String) : Bool :=
  hasSubAux pat.data s.data

/-- Failure classification in `eagerlyLoad`'s catch block
(helpers.ts:590-608): an exact match on the no-default-fetch-URL
message marks `noRemote`; a substring match on the not-a-git-repo
pattern marks `notGit`; the path's `RepoState` and `lastRepo` record
the failure. -/
def classifyLoadFailure (c : Ctrl) (repoPath msg : String) : Ctrl :=
  let noRemote := msg == noRemoteErrorMessage
  let notGit := hasSub msg notAGitRepositoryPattern
  { c with
    repoState := setEntry c.repoState repoPath
      { indexable := !(notGit || noRemote), isGit := !notGit, hasIndex := false }
    lastRepo := some { path := repoPath, loadResult := false } }

/-- `eagerlyLoad` (helpers.ts:578-612): awaits `getService`, issues
`embeddings/load`, records `RepoState` and `lastRepo` on success with
a truthy result, classifies the error otherwise (a `getService`
rejection is caught by the same catch block), always fires
`statusEmitter` once, and returns `lastRepo.loadResult`.  `resp` is
the truthiness of the engine's `embeddings/load` response when the
service is available. -/
def eagerlyLoad (c : Ctrl) (repoPath : String) (spawnOutcome : Except String Unit)
    (resp : Except String Bool) : Out Bool :=
  let g := getService c spawnOutcome
  match g.ret with
  | .error e =>
    ⟨classifyLoadFailure g.ctrl repoPath e,
     g.eff.merge { statusEvents := 1 }, false⟩
  | .ok _ =>
    match resp with
    | .ok hasIndex =>
      ⟨{ g.ctrl with
          repoState := setEntry g.ctrl.repoState repoPath
            { indexable := true, isGit := true, hasIndex := hasIndex }
          lastRepo := some { path := repoPath, loadResult := hasIndex } },
       g.eff.merge { statusEvents := 1, requests := [.loadReq repoPath] },
       hasIndex⟩
    | .error e =>
      ⟨classifyLoadFailure g.ctrl repoPath e,
       g.eff.merge { statusEvents := 1, requests := [.loadReq repoPath] },
       false⟩

/-- Tail of `load` after the guards (helpers.ts:563-575): when the
service has not started, kick off a background `getService` and
return false immediately; otherwise delegate to `eagerlyLoad`. -/
def loadProceed (c : Ctrl) (repoPath : String) (spawnOutcome : Except String Unit)
    (resp : Except String Bool) : Out Bool :=
  if !c.serviceStarted then
    let g := getService c spawnOutcome
    ⟨g.ctrl, g.eff, false⟩
  else
    eagerlyLoad c repoPath spawnOutcome resp

/-- `load` (helpers.ts:548-576): false for a non-dotcom endpoint, a
missing or empty path, or a cached `hasIndex = false` entry (negative
cache); a cached positive entry falls through to the engine. -/
def load (c : Ctrl) (repoUri : Option String) (spawnOutcome : Except String Unit)
    (resp : Except String Bool) : Out Bool :=
  if !c.endpointIsDotcom then ⟨c, {}, false⟩
  else
    match repoUri with
    | none => ⟨c, {}, false⟩
    | some repoPath =>
      if repoPath == "" then ⟨c, {}, false⟩
      else
        match getEntry c.repoState repoPath with
        | some st =>
          if !st.hasIndex then ⟨c, {}, false⟩
          else loadProceed c repoPath spawnOutcome resp
        | none => loadProceed c repoPath spawnOutcome resp

/-- `index` (helpers.ts:523-546): no-op unless the endpoint is dotcom,
`lastRepo` has a truthy path, and `lastRepo.loadResult` is false;
otherwise issues `embeddings/index {path, model, dimension: 1536}`,
and on success sets `pathBeingIndexed`, replaces the status bar item,
and fires `statusEmitter`.  Failures (of `getService` or of the
request) are caught and logged. -/
def index (c : Ctrl) (spawnOutcome resp : Except String Unit) : Out Unit :=
  match c.lastRepo with
  | none => ⟨c, {}, ()⟩
  | some lr =>
    if c.endpointIsDotcom && lr.path != "" && !lr.loadResult then
      let g := getService c spawnOutcome
      match g.ret with
      | .error _ => ⟨g.ctrl, g.eff, ()⟩
      | .ok _ =>
        match resp with
        | .ok _ =>
          ⟨{ g.ctrl with pathBeingIndexed := some lr.path, statusBar := some {} },
           g.eff.merge
             { statusEvents := 1,
               requests := [.indexReq lr.path c.model 1536] }, ()⟩
        | .error _ =>
          ⟨g.ctrl,
           g.eff.merge { requests := [.indexReq lr.path c.model 1536] }, ()⟩
    else ⟨c, {}, ()⟩

/-- `setAccessToken` (helpers.ts:330-350).  `isDot` stands for
`isDotCom` (environments.ts:6-12), a deterministic predicate on the
endpoint string; `token` is the `string | null` argument. -/
def setAccessToken (c : Ctrl) (isDot : String → Bool) (serverEndpoint : String)
    (token : Option String) (spawnOutcome : Except String Unit) : Out Unit :=
  let d := isDot serverEndpoint
  let eff0 : Effects :=
    if d != c.endpointIsDotcom then
      { statusEvents := 1, controllerEvents := if c.serviceStarted then 1 else 0 }
    else {}
  let c1 := { c with endpointIsDotcom := d }
  if tokenStrictEq token c1.accessToken then ⟨c1, eff0, ()⟩
  else
    let c2 := { c1 with accessToken := jsOrUndefined token }
    match token with
    | some t =>
      if t != "" && c2.serviceStarted then
        let g := getService c2 spawnOutcome
        match g.ret with
        | .ok _ =>
          ⟨g.ctrl, eff0.merge (g.eff.merge { requests := [.setTokenReq t] }), ()⟩
        | .error _ => ⟨g.ctrl, eff0.merge g.eff, ()⟩
      else ⟨c2, eff0, ()⟩
    | none => ⟨c2, eff0, ()⟩

/-- `query` (helpers.ts:614-619): empty results for non-dotcom,
otherwise forwards `embeddings/query` (a `getService` rejection
propagates to the caller). -/
def query (c : Ctrl) (q : String) (spawnOutcome : Except String Unit)
    (resp : List String) : Out (Except String (List String)) :=
  if !c.endpointIsDotcom then ⟨c, {}, .ok []⟩
  else
    let g := getService c spawnOutcome
    match g.ret with
    | .ok _ => ⟨g.ctrl, g.eff.merge { requests := [.queryReq q] }, .ok resp⟩
    | .error e => ⟨g.ctrl, g.eff, .error e⟩

/-- Provider states the status getter publishes
(`'indeterminate' | 'indexing' | 'ready' | 'unconsented' | 'no-match'`). -/
inductive CGState where
  | indeterminate
  | indexing
  | ready
  | unconsented
  | noMatch
deriving Repr, DecidableEq

/-- One context provider entry; `kind` and `type` are the constants
`'embeddings'` and `'local'` at every construction site. -/
structure Provider where
  kind : String := "embeddings"
  type : String := "local"
  state : CGState
deriving Repr, DecidableEq

/-- One context group: `{name: path, providers: [...]}`. -/
structure ContextGroup where
  name : String
  providers : List Provider
deriving Repr, DecidableEq

/-- The `path` local of the status getter (helpers.ts:466):
`this.lastRepo?.path || workspaceFolders?.[0].uri.fsPath ||
'(No workspace loaded)'`. -/
def activePath (c : Ctrl) (workspaceFolder : Option String) : String :=
  jsOr (c.lastRepo.map LastRepo.path) (jsOr workspaceFolder "(No workspace loaded)")

/-- The `status` getter (helpers.ts:459-519). -/
def statusOf (c : Ctrl) (workspaceFolder : Option String) : List ContextGroup :=
  if !c.endpointIsDotcom then []
  else
    let path := activePath c workspaceFolder
    match c.lastRepo with
    | none => [⟨path, [{ state := .indeterminate }]⟩]
    | some lr =>
      if c.pathBeingIndexed == some path then [⟨path, [{ state := .indexing }]⟩]
      else if lr.loadResult then [⟨path, [{ state := .ready }]⟩]
      else
        match getEntry c.repoState path with
        | none => []
        | some st =>
          if !st.isGit then []
          else
            [⟨path, [{ state := if st.indexable then .unconsented else .noMatch }]⟩]

/-- `Math.floor((100 * numItems) / totalItems)` (helpers.ts:377) on
the Progress payload counters, as floor division on naturals. -/
def progressPercent (numItems totalItems : Nat) : Nat :=
  100 * numItems / totalItems

/-- The status bar text the Progress branch displays
(helpers.ts:378); `toFixed(0)` of the integer percent is its decimal
numeral. -/
def progressText (percent : Nat) : String :=
  "$(loading~spin) Cody Embeddings (" ++ toString percent ++ "%)"

/-- Status bar text of the Done branch (helpers.ts:389). -/
def doneText : String := "$(sparkle) Cody Embeddings"

/-- Status bar text of the Error branch (helpers.ts:383). -/
def warnText : String := "$(warning) Cody Embeddings"

/-- The `embeddings/progress` handler registered in
`spawnAndBindService` (helpers.ts:370-414).  When no status bar item
exists the notification is dropped.  On `Done` the item is restored,
detached (hidden after a delay; modelled as removal), a reload of
`pathBeingIndexed` is scheduled when that path is truthy and
`lastRepo` is absent or names the same path, `pathBeingIndexed` is
cleared, and `statusEmitter` fires once. -/
def handleProgress (c : Ctrl) (n : EngineNotice) : Out Unit :=
  match c.statusBar with
  | none => ⟨c, {}, ()⟩
  | some _ =>
    match n with
    | .progress num tot curPath =>
      ⟨{ c with statusBar := some (
          { text := progressText (progressPercent num tot)
            warning := false, tooltip := curPath, visible := true }) }, {}, ()⟩
    | .engineError msg =>
      ⟨{ c with statusBar := some (
          { text := warnText, warning := true, tooltip := msg, visible := true }) },
       {}, ()⟩
    | .done =>
      let reload :=
        match c.pathBeingIndexed with
        | some p =>
          p != "" &&
            (match c.lastRepo with
             | none => true
             | some lr => lr.path == p)
        | none => false
      ⟨{ c with statusBar := none, pathBeingIndexed := none },
       { statusEvents := 1, reloadsScheduled := if reload then 1 else 0 }, ()⟩
    | .unknown _ => ⟨c, { infoMessages := 1 }, ()⟩

/-- One controller step: any public operation, the internal load
routine (also run as the deferred post-index reload), or an engine
notification, with arbitrary arguments and engine outcomes. -/
inductive Step : Ctrl → Ctrl → Prop where
  | setTok (c : Ctrl) (f : String → Bool) (ep : String) (tok : Option String)
      (o : Except String Unit) :
      Step c (setAccessToken c f ep tok o).ctrl
  | getSvc (c : Ctrl) (o : Except String Unit) :
      Step c (getService c o).ctrl
  | doLoad (c : Ctrl) (u : Option String) (o : Except String Unit)
      (r : Except String Bool) :
      Step c (load c u o r).ctrl
  | eager (c : Ctrl) (p : String) (o : Except String Unit)
      (r : Except String Bool) :
      Step c (eagerlyLoad c p o r).ctrl
  | doIndex (c : Ctrl) (o r : Except String Unit) :
      Step c (index c o r).ctrl
  | notice (c : Ctrl) (n : EngineNotice) :
      Step c (handleProgress c n).ctrl
  | doQuery (c : Ctrl) (q : String) (o : Except String Unit) (r : List String) :
      Step c (query c q o r).ctrl

/-- The repository-state invariant: a path recorded as non-git is
also recorded as non-indexable. -/
def RepoInv (c : Ctrl) : Prop :=
  ∀ p st, (p, st) ∈ c.repoState → st.isGit = false → st.indexable = false

/-! Helper lemmas about the association-list store and about which
operations leave `repoState` untouched. -/

theorem getEntry_setEntry_self (m : List (String × RepoState)) (k : String)
    (v : RepoState) : getEntry (setEntry m k v) k = some v := by
  induction m with
  | nil => simp [getEntry, setEntry]
  | cons hd tl ih =>
    obtain ⟨k0, v0⟩ := hd
    by_cases h : k0 == k
    · simp [getEntry, setEntry, h]
    · simp only [setEntry, h, if_neg, Bool.false_eq_true, not_false_eq_true]
      simp [getEntry, h, ih]

theorem setEntry_mem {m : List (String × RepoState)} {k : String}
    {v : RepoState} {q : String} {st : RepoState}
    (h : (q, st) ∈ setEntry m k v) : (q, st) ∈ m ∨ st = v := by
  induction m with
  | nil =>
    simp [setEntry] at h
    exact Or.inr h.2
  | cons hd tl ih =>
    obtain ⟨k0, v0⟩ := hd
    by_cases hk : k0 == k
    · simp only [setEntry, hk, if_pos] at h
      rcases List.mem_cons.mp h with h1 | h1
      · exact Or.inr (congrArg Prod.snd h1)
      · exact Or.inl (List.mem_cons_of_mem _ h1)
    · simp only [setEntry, hk, Bool.false_eq_true, if_neg, not_false_eq_true] at h
      rcases List.mem_cons.mp h with h1 | h1
      · exact Or.inl (h1 ▸ List.mem_cons_self _ _)
      · rcases ih h1 with h2 | h2
        · exact Or.inl (List.mem_cons_of_mem _ h2)
        · exact Or.inr h2

theorem getService_repoState (c : Ctrl) (o : Except String Unit) :
    (getService c o).ctrl.repoState = c.repoState := by
  unfold getService
  cases c.service <;> cases o <;> rfl

theorem setAccessToken_repoState (c : Ctrl) (f : String → Bool) (ep : String)
    (tok : Option String) (o : Except String Unit) :
    (setAccessToken c f ep tok o).ctrl.repoState = c.repoState := by
  obtain ⟨mo, svc, ss, acc, dot, sb, lr, rs, pbi⟩ := c
  rcases tok with _ | t <;> rcases acc with _ | a <;>
    rcases svc with _ | (e | u) <;> rcases o with oe | ou <;>
    simp [setAccessToken, getService] <;> (try split) <;> (try split) <;>
    simp_all

theorem index_repoState (c : Ctrl) (o r : Except String Unit) :
    (index c o r).ctrl.repoState = c.repoState := by
  obtain ⟨mo, svc, ss, acc, dot, sb, lr, rs, pbi⟩ := c
  rcases lr with _ | lr <;> rcases svc with _ | (e | u) <;>
    rcases o with oe | ou <;> rcases r with re | ru <;>
    simp [index, getService] <;> (try split) <;> (try split) <;> simp_all

theorem handleProgress_repoState (c : Ctrl) (n : EngineNotice) :
    (handleProgress c n).ctrl.repoState = c.repoState := by
  unfold handleProgress
  cases hsb : c.statusBar <;> cases n <;> rfl

theorem query_repoState (c : Ctrl) (q : String) (o : Except String Unit)
    (r : List String) : (query c q o r).ctrl.repoState = c.repoState := by
  obtain ⟨mo, svc, ss, acc, dot, sb, lr, rs, pbi⟩ := c
  rcases svc with _ | (e | u) <;> rcases o with oe | ou <;>
    simp [query, getService] <;> (try split) <;> simp_all

theorem repoInv_of_eq {c c2 : Ctrl} (h : c2.repoState = c.repoState)
    (hc : RepoInv c) : RepoInv c2 := by
  intro p st hmem hgit
  exact hc p st (h ▸ hmem) hgit

theorem classifyLoadFailure_preserves {c : Ctrl} (p e : String)
    (h : RepoInv c) : RepoInv (classifyLoadFailure c p e) := by
  intro q st hmem hgit
  simp only [classifyLoadFailure] at hmem
  rcases setEntry_mem hmem with hin | hv
  · exact h q st hin hgit
  · subst hv
    revert hgit
    cases hasSub e notAGitRepositoryPattern <;> simp

theorem eagerlyLoad_preserves {c : Ctrl} (p : String) (o : Except String Unit)
    (r : Except String Bool) (h : RepoInv c) :
    RepoInv (eagerlyLoad c p o r).ctrl := by
  have hg : RepoInv (getService c o).ctrl :=
    repoInv_of_eq (getService_repoState c o) h
  unfold eagerlyLoad
  cases hret : (getService c o).ret with
  | error e =>
    simp only [hret]
    exact classifyLoadFailure_preserves p e hg
  | ok u =>
    simp only [hret]
    cases r with
    | error e => exact classifyLoadFailure_preserves p e hg
    | ok b =>
      intro q st hmem hgit
      simp only [Ctrl.repoState] at hmem
      rcases setEntry_mem hmem with hin | hv
      · exact hg q st hin hgit
      · subst hv
        simp at hgit

theorem load_preserves {c : Ctrl} (u : Option String) (o : Except String Unit)
    (r : Except String Bool) (h : RepoInv c) :
    RepoInv (load c u o r).ctrl := by
  unfold load loadProceed
  split
  · exact h
  · split
    · exact h
    next p =>
      split
      · exact h
      · split
        · split
          · exact h
          · split
            · exact repoInv_of_eq (getService_repoState c o) h
            · exact eagerlyLoad_preserves p o r h
        · split
          · exact repoInv_of_eq (getService_repoState c o) h
          · exact eagerlyLoad_preserves p o r h

theorem step_preserves_repoInv {a b : Ctrl} (hs : Step a b) (h : RepoInv a) :
    RepoInv b := by
  cases hs with
  | setTok f ep tok o =>
    exact repoInv_of_eq (setAccessToken_repoState _ f ep tok o) h
  | getSvc o => exact repoInv_of_eq (getService_repoState _ o) h
  | doLoad u o r => exact load_preserves u o r h
  | eager p o r => exact eagerlyLoad_preserves p o r h
  | doIndex o r => exact repoInv_of_eq (index_repoState _ o r) h
  | notice n => exact repoInv_of_eq (handleProgress_repoState _ n) h
  | doQuery q o r => exact repoInv_of_eq (query_repoState _ q o r) h

/-! Concrete controller states used by witnesses and counterexamples. -/

/-- A controller on a dotcom endpoint whose engine spawned
successfully (the memoized service promise is resolved). -/
def svcReady : Ctrl :=
  { service := some (.ok ()), serviceStarted := true, endpointIsDotcom := true }

/-- `svcReady` after `/repo` loaded without an existing index
(`lastRepo.loadResult = false`): the state from which `index()`
proceeds. -/
def cIndexable : Ctrl :=
  { svcReady with lastRepo := some { path := "/repo", loadResult := false } }

/-- `cIndexable` while `/repo` is being indexed: `pathBeingIndexed`
set and a status bar item present, as after a successful `index()`. -/
def cProgressBar : Ctrl :=
  { cIndexable with statusBar := some {}, pathBeingIndexed := some "/repo" }

/-- C1 counterexample: starting from a fresh controller, a failed
spawn leaves the rejected promise memoized in `service`; the next
`getService()` call returns the very same rejection and starts no
fresh spawn attempt — refuting the claim that the rejection is not
memoized. -/
theorem getService_failure_memoized_cex :
    (getService ({} : Ctrl) (.error "spawn failed")).ctrl.service
        = some (.error "spawn failed") ∧
    (getService (getService ({} : Ctrl) (.error "spawn failed")).ctrl
        (.ok ())).eff.spawns = 0 ∧
    (getService (getService ({} : Ctrl) (.error "spawn failed")).ctrl
        (.ok ())).ret = .error "spawn failed" :=
  ⟨rfl, rfl, rfl⟩

/-- C1 (amended): a `getService()` failure IS memoized.
`getService` stores the `spawnAndBindService` promise synchronously
and nothing clears it on rejection, so after a failed first call
every later `getService()` call returns the same rejected handle,
starts no fresh spawn, and leaves the state unchanged. -/
theorem getService_failure_memoized (c : Ctrl) (e : String)
    (h : c.service = none) (o : Except String Unit) :
    (getService c (.error e)).ctrl.service = some (.error e) ∧
    (getService (getService c (.error e)).ctrl o).eff.spawns = 0 ∧
    (getService (getService c (.error e)).ctrl o).ret = .error e ∧
    (getService (getService c (.error e)).ctrl o).ctrl
        = (getService c (.error e)).ctrl := by
  simp [getService, h]

/-- C1 amended-claim witness at a concrete fresh controller. -/
theorem getService_failure_memoized_witness :
    (getService ({} : Ctrl) (.error "boom")).ctrl.service
        = some (.error "boom") ∧
    (getService (getService ({} : Ctrl) (.error "boom")).ctrl
        (.ok ())).eff.spawns = 0 ∧
    (getService (getService ({} : Ctrl) (.error "boom")).ctrl
        (.ok ())).ret = .error "boom" ∧
    (getService (getService ({} : Ctrl) (.error "boom")).ctrl (.ok ())).ctrl
        = (getService ({} : Ctrl) (.error "boom")).ctrl :=
  getService_failure_memoized {} "boom" rfl (.ok ())

/-- C10: an `embeddings/progress` notification of any shape arriving
while no status bar item exists (as before any successful `index()`
call) is dropped by the handler guard: state, including
`pathBeingIndexed`, is unchanged and no reload, status-changed,
controller-changed, or information message is produced. -/
theorem progress_ignored_without_statusbar (c : Ctrl) (n : EngineNotice)
    (h : c.statusBar = none) : handleProgress c n = ⟨c, {}, ()⟩ := by
  unfold handleProgress
  rw [h]

/-- C10 witness: a `Done` notification on a fresh controller. -/
theorem progress_ignored_without_statusbar_witness :
    handleProgress ({} : Ctrl) .done = ⟨{}, {}, ()⟩ :=
  progress_ignored_without_statusbar {} .done rfl

/-- C8 counterexample: the Progress branch applies no clamp.  A
`Progress{numItems: 150, totalItems: 100}` notification displays
150%, above the claimed 0-100 range. -/
theorem progress_percent_unclamped_cex :
    progressPercent 150 100 = 150 ∧
    ¬ progressPercent 150 100 ≤ 100 ∧
    (handleProgress cProgressBar (.progress 150 100 "/repo/main.c")).ctrl.statusBar
        = some { text := progressText 150, warning := false,
                 tooltip := "/repo/main.c", visible := true } :=
  ⟨by decide, by decide, rfl⟩

/-- C8 (amended): the displayed indexing percentage equals
`floor(100 * numItems / totalItems)` with no clamping applied; it
lies in 0-100 whenever `numItems ≤ totalItems`, and for a fixed
`totalItems` it is monotone non-decreasing in `numItems`; the
Progress branch displays exactly this percent. -/
theorem progress_percent_floor_monotone (n n2 t : Nat) (ht : 0 < t) :
    (n ≤ t → progressPercent n t ≤ 100) ∧
    (n ≤ n2 → progressPercent n t ≤ progressPercent n2 t) ∧
    (∀ (c : Ctrl) (sb : StatusBarItem) (curPath : String),
      c.statusBar = some sb →
      (handleProgress c (.progress n t curPath)).ctrl.statusBar
        = some { text := progressText (progressPercent n t), warning := false,
                 tooltip := curPath, visible := true }) := by
  refine ⟨fun h => ?_, fun h => ?_, fun c sb curPath hsb => ?_⟩
  · calc 100 * n / t ≤ 100 * t / t :=
        Nat.div_le_div_right (Nat.mul_le_mul_left _ h)
    _ = 100 := by rw [Nat.mul_comm]; exact Nat.mul_div_cancel_left 100 ht
  · exact Nat.div_le_div_right (Nat.mul_le_mul_left _ h)
  · unfold handleProgress
    rw [hsb]

/-- C8 amended-claim witness: 50 of 100 items displays 50%, within
range and below the percent for 75 of 100 items. -/
theorem progress_percent_floor_monotone_witness :
    (progressPercent 50 100 ≤ 100) ∧
    (progressPercent 50 100 ≤ progressPercent 75 100) ∧
    ((handleProgress cProgressBar (.progress 50 100 "/repo/main.c")).ctrl.statusBar
        = some { text := progressText (progressPercent 50 100), warning := false,
                 tooltip := "/repo/main.c", visible := true }) :=
  ⟨(progress_percent_floor_monotone 50 75 100 (by decide)).1 (by decide),
   (progress_percent_floor_monotone 50 75 100 (by decide)).2.1 (by decide),
   (progress_percent_floor_monotone 50 75 100 (by decide)).2.2 cProgressBar {}
     "/repo/main.c" rfl⟩

theorem getService_accessToken (c : Ctrl) (o : Except String Unit) :
    (getService c o).ctrl.accessToken = c.accessToken := by
  unfold getService
  cases c.service <;> cases o <;> rfl

theorem getService_endpointIsDotcom (c : Ctrl) (o : Except String Unit) :
    (getService c o).ctrl.endpointIsDotcom = c.endpointIsDotcom := by
  unfold getService
  cases c.service <;> cases o <;> rfl

theorem setAccessToken_endpointIsDotcom (c : Ctrl) (f : String → Bool)
    (ep : String) (tok : Option String) (o : Except String Unit) :
    (setAccessToken c f ep tok o).ctrl.endpointIsDotcom = f ep := by
  obtain ⟨mo, svc, ss, acc, dot, sb, lr, rs, pbi⟩ := c
  rcases tok with _ | t <;> rcases acc with _ | a <;>
    rcases svc with _ | (e | u) <;> rcases o with oe | ou <;>
    simp [setAccessToken, getService] <;> (try split) <;> (try split) <;>
    simp_all

theorem setAccessToken_accessToken (c : Ctrl) (f : String → Bool)
    (ep : String) (tok : Option String) (o : Except String Unit) :
    (setAccessToken c f ep tok o).ctrl.accessToken
      = if tokenStrictEq tok c.accessToken then c.accessToken
        else jsOrUndefined tok := by
  obtain ⟨mo, svc, ss, acc, dot, sb, lr, rs, pbi⟩ := c
  rcases tok with _ | t <;> rcases acc with _ | a <;>
    rcases svc with _ | (e | u) <;> rcases o with oe | ou <;>
    simp [setAccessToken, getService, tokenStrictEq, jsOrUndefined] <;>
    (try split) <;> (try split) <;> simp_all

/-- A `setAccessToken` call that changes neither `endpointIsDotcom`
nor (observably) the stored token is a complete no-op: same state, no
events, no requests. -/
theorem setAccessToken_noop (c : Ctrl) (isDot : String → Bool) (ep : String)
    (tok : Option String) (o : Except String Unit)
    (hd : isDot ep = c.endpointIsDotcom)
    (ha : c.accessToken = jsOrUndefined tok ∨
      (∃ t, tok = some t ∧ c.accessToken = some t)) :
    (setAccessToken c isDot ep tok o).ctrl = c ∧
    (setAccessToken c isDot ep tok o).eff = {} := by
  obtain ⟨mo, svc, ss, acc, dot, sb, lr, rs, pbi⟩ := c
  simp only at hd ha
  rcases tok with _ | t
  · have hacc : acc = none := by
      rcases ha with h | ⟨t, ht, _⟩
      · simpa [jsOrUndefined] using h
      · cases ht
    subst hacc
    simp [setAccessToken, tokenStrictEq, jsOrUndefined, hd]
  · rcases ha with h | ⟨t2, ht2, hacc⟩
    · by_cases he : t = ""
      · subst he
        have hacc : acc = none := by simpa [jsOrUndefined] using h
        subst hacc
        simp [setAccessToken, tokenStrictEq, jsOrUndefined, hd]
      · have hacc : acc = some t := by simpa [jsOrUndefined, he] using h
        subst hacc
        simp [setAccessToken, tokenStrictEq, hd]
    · obtain rfl : t2 = t := by injection ht2 with h2; exact h2.symm
      subst hacc
      simp [setAccessToken, tokenStrictEq, hd]

/-- C9: calling `setAccessToken` twice in a row with the same
`(endpoint, token)` pair leaves the state after the second call
exactly equal to the state after the first, and the second call
produces no status-changed event, no controller-changed event, no
engine request (in particular no `embeddings/set-token`), and no
spawn — so `endpointIsDotcom` and the stored token are unchanged. -/
theorem setAccessToken_idempotent (c : Ctrl) (isDot : String → Bool)
    (ep : String) (tok : Option String) (o1 o2 : Except String Unit) :
    (setAccessToken (setAccessToken c isDot ep tok o1).ctrl isDot ep tok o2).ctrl
        = (setAccessToken c isDot ep tok o1).ctrl ∧
    (setAccessToken (setAccessToken c isDot ep tok o1).ctrl isDot ep tok o2).eff
        = {} := by
  apply setAccessToken_noop
  · rw [setAccessToken_endpointIsDotcom]
  · rw [setAccessToken_accessToken]
    by_cases h : tokenStrictEq tok c.accessToken
    · rcases tok with _ | t
      · simp [tokenStrictEq] at h
      · rcases hacc : c.accessToken with _ | a
        · rw [hacc] at h
          simp [tokenStrictEq] at h
        · rw [hacc] at h
          right
          refine ⟨t, rfl, ?_⟩
          have hat : a = t := (beq_iff_eq.mp (by simpa [tokenStrictEq] using h)).symm
          subst hat
          simp [tokenStrictEq]
    · left
      simp [h]

/-- C5: when the load-attempt routine's `embeddings/load` request
fails with message `e` (the service being available), it records for
the path a `RepoState` with `notGit` decided by the unanchored
git-repository pattern and `noRemote` by exact match on the
no-default-fetch-URL message — `hasIndex = false`,
`indexable = !(notGit || noRemote)`, `isGit = !notGit` — and records
`lastRepo = {path, loadResult: false}`; and in every case, success or
failure, it fires exactly one status-changed event and returns the
recorded `loadResult`. -/
theorem eagerlyLoad_records_classification (c : Ctrl) (p : String)
    (o : Except String Unit) (hsvc : c.service = some (.ok ())) :
    (∀ e,
      getEntry (eagerlyLoad c p o (.error e)).ctrl.repoState p =
        some { indexable :=
                 !(hasSub e notAGitRepositoryPattern || e == noRemoteErrorMessage)
               isGit := !hasSub e notAGitRepositoryPattern
               hasIndex := false } ∧
      (eagerlyLoad c p o (.error e)).ctrl.lastRepo
          = some { path := p, loadResult := false } ∧
      (eagerlyLoad c p o (.error e)).eff.statusEvents = 1 ∧
      (eagerlyLoad c p o (.error e)).ret = false) ∧
    (∀ b,
      getEntry (eagerlyLoad c p o (.ok b)).ctrl.repoState p =
        some { indexable := true, isGit := true, hasIndex := b } ∧
      (eagerlyLoad c p o (.ok b)).ctrl.lastRepo
          = some { path := p, loadResult := b } ∧
      (eagerlyLoad c p o (.ok b)).eff.statusEvents = 1 ∧
      (eagerlyLoad c p o (.ok b)).ret = b) := by
  constructor
  · intro e
    simp [eagerlyLoad, getService, hsvc, classifyLoadFailure, Effects.merge,
      getEntry_setEntry_self]
  · intro b
    simp [eagerlyLoad, getService, hsvc, Effects.merge, getEntry_setEntry_self]

/-- C5 witness: a not-a-git-repository failure for `/repo` on a
started service. -/
theorem eagerlyLoad_records_classification_witness :
    (getEntry (eagerlyLoad svcReady "/repo" (.ok ())
        (.error "fatal: /repo does not appear to be a git repository")).ctrl.repoState
        "/repo" =
      some { indexable :=
               !(hasSub "fatal: /repo does not appear to be a git repository"
                   notAGitRepositoryPattern ||
                 "fatal: /repo does not appear to be a git repository"
                   == noRemoteErrorMessage)
             isGit := !hasSub "fatal: /repo does not appear to be a git repository"
                 notAGitRepositoryPattern
             hasIndex := false }) ∧
    (eagerlyLoad svcReady "/repo" (.ok ())
        (.error "fatal: /repo does not appear to be a git repository")).ctrl.lastRepo
        = some { path := "/repo", loadResult := false } ∧
    (eagerlyLoad svcReady "/repo" (.ok ())
        (.error "fatal: /repo does not appear to be a git repository")).eff.statusEvents
        = 1 ∧
    (eagerlyLoad svcReady "/repo" (.ok ())
        (.error "fatal: /repo does not appear to be a git repository")).ret = false :=
  (eagerlyLoad_records_classification svcReady "/repo" (.ok ()) rfl).1
    "fatal: /repo does not appear to be a git repository"

/-- C7: a `Done` notification handled while a status bar item exists
and `pathBeingIndexed` (a truthy path, as set by `index()`) equals
`lastRepo.path` schedules exactly one reload of that path — one
deferred `eagerlyLoad`, hence one `embeddings/load` request — and
fires exactly one status-changed event, clearing `pathBeingIndexed`;
handled after the active path has changed (`lastRepo.path` differs
from `pathBeingIndexed`) it schedules zero reloads and still fires
exactly one status-changed event. -/
theorem done_reload_policy (c : Ctrl) (sb : StatusBarItem) (p : String)
    (hsb : c.statusBar = some sb) (hp : c.pathBeingIndexed = some p)
    (hne : p ≠ "") :
    (∀ b, c.lastRepo = some { path := p, loadResult := b } →
      (handleProgress c .done).eff.reloadsScheduled = 1 ∧
      (handleProgress c .done).eff.statusEvents = 1 ∧
      (handleProgress c .done).ctrl.pathBeingIndexed = none) ∧
    (∀ q b, c.lastRepo = some { path := q, loadResult := b } → q ≠ p →
      (handleProgress c .done).eff.reloadsScheduled = 0 ∧
      (handleProgress c .done).eff.statusEvents = 1 ∧
      (handleProgress c .done).ctrl.pathBeingIndexed = none) := by
  constructor
  · intro b hlr
    simp [handleProgress, hsb, hp, hlr, hne]
  · intro q b hlr hqp
    simp [handleProgress, hsb, hp, hlr, hne, hqp]

/-- C7 witness: `Done` while `/repo` is both being indexed and the
last-loaded repository schedules the one reload; the claim's
hypotheses hold at `cProgressBar`. -/
theorem done_reload_policy_witness :
    (handleProgress cProgressBar .done).eff.reloadsScheduled = 1 ∧
    (handleProgress cProgressBar .done).eff.statusEvents = 1 ∧
    (handleProgress cProgressBar .done).ctrl.pathBeingIndexed = none :=
  (done_reload_policy cProgressBar {} "/repo" rfl rfl (by decide)).1 false rfl

/-- C2 counterexample: from `cIndexable`, a first `index()` call
succeeds and sets `pathBeingIndexed` to `/repo` while
`lastRepo.loadResult` stays false; the second `index()` call made in
that state is NOT rejected at the method boundary — it issues a
second `embeddings/index` request. -/
theorem index_second_call_not_rejected_cex :
    ((index cIndexable (.ok ()) (.ok ())).ctrl.pathBeingIndexed = some "/repo" ∧
     (index cIndexable (.ok ()) (.ok ())).ctrl.lastRepo
        = some { path := "/repo", loadResult := false }) ∧
    (index (index cIndexable (.ok ()) (.ok ())).ctrl (.ok ()) (.ok ())).eff.requests
        = [.indexReq "/repo" "openai/text-embedding-ada-002" 1536] :=
  ⟨⟨rfl, rfl⟩, rfl⟩

/-- C2 (amended): `index()` is a no-op — no engine request, no state
change, no event — unless the endpoint is dotcom, `lastRepo` exists
with a truthy (nonempty) path, and its `loadResult` is false.
`pathBeingIndexed` is not consulted by the guard, so a second
`index()` call made while that same repository is being indexed
(`loadResult` still false) passes the guard and issues a second
`embeddings/index` request; only an already-indexed repository
(`loadResult` true) is rejected at the method boundary. -/
theorem index_guard_characterization (c : Ctrl) (o r : Except String Unit) :
    (c.lastRepo = none → index c o r = ⟨c, {}, ()⟩) ∧
    (∀ lr, c.lastRepo = some lr →
      (c.endpointIsDotcom = false ∨ lr.path = "" ∨ lr.loadResult = true) →
      index c o r = ⟨c, {}, ()⟩) ∧
    (∀ lr, c.lastRepo = some lr → c.endpointIsDotcom = true → lr.path ≠ "" →
      lr.loadResult = false → c.service = some (.ok ()) →
      (index c o r).eff.requests = [.indexReq lr.path c.model 1536] ∧
      (r = .ok () → (index c o r).ctrl.pathBeingIndexed = some lr.path)) := by
  refine ⟨fun h => ?_, fun lr hlr hcond => ?_, fun lr hlr hdot hpath hload hsvc => ?_⟩
  · simp [index, h]
  · rcases hcond with h | h | h <;>
      simp [index, hlr, h]
  · cases r with
    | ok u =>
      constructor
      · simp [index, hlr, hdot, hpath, hload, getService, hsvc, Effects.merge]
      · intro _
        simp [index, hlr, hdot, hpath, hload, getService, hsvc]
    | error e =>
      constructor
      · simp [index, hlr, hdot, hpath, hload, getService, hsvc, Effects.merge]
      · intro hre
        cases hre

/-- C2 amended-claim witness: the guard passes at `cIndexable` and
one `embeddings/index` request is issued, setting
`pathBeingIndexed`. -/
theorem index_guard_characterization_witness :
    (index cIndexable (.ok ()) (.ok ())).eff.requests
        = [.indexReq "/repo" cIndexable.model 1536] ∧
    (index cIndexable (.ok ()) (.ok ())).ctrl.pathBeingIndexed = some "/repo" := by
  have h := (index_guard_characterization cIndexable (.ok ()) (.ok ())).2.2
    { path := "/repo", loadResult := false } rfl rfl (by decide) rfl rfl
  exact ⟨h.1, h.2 rfl⟩

/-- C4: `load(repoUri)` returns false with no engine contact and no
mutation of any state (in particular `repoState` and `lastRepo`) when
the endpoint is not dotcom, when no path is resolvable (missing or
empty `fsPath`), or when a cached `RepoState` for the path has
`hasIndex = false` (negative caching).  A cached `hasIndex = true`
entry does not short-circuit: `load` delegates to the load-attempt
routine, which issues the `embeddings/load` request.  When the
service has not started, `load` runs the background `getService`
start attempt and returns false immediately. -/
theorem load_short_circuits (c : Ctrl) (o : Except String Unit)
    (r : Except String Bool) :
    (c.endpointIsDotcom = false → ∀ u, load c u o r = ⟨c, {}, false⟩) ∧
    (load c none o r = ⟨c, {}, false⟩) ∧
    (load c (some "") o r = ⟨c, {}, false⟩) ∧
    (∀ p st, p ≠ "" → getEntry c.repoState p = some st → st.hasIndex = false →
      load c (some p) o r = ⟨c, {}, false⟩) ∧
    (∀ p, c.endpointIsDotcom = true → p ≠ "" →
      (getEntry c.repoState p = none ∨
        (∃ st, getEntry c.repoState p = some st ∧ st.hasIndex = true)) →
      c.serviceStarted = false →
      load c (some p) o r = ⟨(getService c o).ctrl, (getService c o).eff, false⟩) ∧
    (∀ p, c.endpointIsDotcom = true → p ≠ "" →
      (getEntry c.repoState p = none ∨
        (∃ st, getEntry c.repoState p = some st ∧ st.hasIndex = true)) →
      c.serviceStarted = true →
      load c (some p) o r = eagerlyLoad c p o r ∧
      (c.service = some (.ok ()) →
        (load c (some p) o r).eff.requests = [.loadReq p])) := by
  refine ⟨fun hdot u => ?_, ?_, ?_, fun p st hp hentry hidx => ?_,
    fun p hdot hp hcache hss => ?_, fun p hdot hp hcache hss => ?_⟩
  · cases u <;> simp [load, hdot]
  · simp [load]
  · by_cases hdot : c.endpointIsDotcom <;> simp [load, hdot]
  · by_cases hdot : c.endpointIsDotcom <;>
      simp [load, hdot, hp, hentry, hidx]
  · rcases hcache with h | ⟨st, hentry, hidx⟩ <;>
      simp [load, loadProceed, hdot, hp, hss, *]
  · have hload : load c (some p) o r = eagerlyLoad c p o r := by
      rcases hcache with h | ⟨st, hentry, hidx⟩ <;>
        simp [load, loadProceed, hdot, hp, hss, *]
    refine ⟨hload, fun hsvc => ?_⟩
    rw [hload]
    cases r <;> simp [eagerlyLoad, getService, hsvc, Effects.merge]

/-- C4 witness: a negative-cache hit for `/repo` returns false and
changes nothing. -/
theorem load_short_circuits_witness :
    load { svcReady with
            repoState := [("/repo",
              { indexable := false, isGit := false, hasIndex := false })] }
        (some "/repo") (.ok ()) (.ok true)
      = ⟨{ svcReady with
            repoState := [("/repo",
              { indexable := false, isGit := false, hasIndex := false })] },
         {}, false⟩ :=
  (load_short_circuits _ (.ok ()) (.ok true)).2.2.2.1 "/repo"
    { indexable := false, isGit := false, hasIndex := false }
    (by decide) rfl rfl

/-- C3: the status getter is a pure function of session state that
applies exactly this priority order: (1) a non-dotcom endpoint yields
the empty list; (2) otherwise no `lastRepo` yields one group in state
`indeterminate`; (3) otherwise `pathBeingIndexed` equal to the active
path yields `indexing`; (4) otherwise `lastRepo.loadResult` true
yields `ready`; (5) otherwise a missing or non-git cached `RepoState`
yields the empty list (a non-git workspace never advertises
embeddings); (6) otherwise the state is `unconsented` when
`indexable` is true and `no-match` when it is false. -/
theorem status_priority_order (c : Ctrl) (wf : Option String) :
    (c.endpointIsDotcom = false → statusOf c wf = []) ∧
    (c.endpointIsDotcom = true → c.lastRepo = none →
      statusOf c wf = [⟨activePath c wf, [{ state := .indeterminate }]⟩]) ∧
    (∀ lr, c.endpointIsDotcom = true → c.lastRepo = some lr →
      c.pathBeingIndexed = some (activePath c wf) →
      statusOf c wf = [⟨activePath c wf, [{ state := .indexing }]⟩]) ∧
    (∀ lr, c.endpointIsDotcom = true → c.lastRepo = some lr →
      c.pathBeingIndexed ≠ some (activePath c wf) → lr.loadResult = true →
      statusOf c wf = [⟨activePath c wf, [{ state := .ready }]⟩]) ∧
    (∀ lr, c.endpointIsDotcom = true → c.lastRepo = some lr →
      c.pathBeingIndexed ≠ some (activePath c wf) → lr.loadResult = false →
      (getEntry c.repoState (activePath c wf) = none ∨
        (∃ st, getEntry c.repoState (activePath c wf) = some st ∧
          st.isGit = false)) →
      statusOf c wf = []) ∧
    (∀ lr st, c.endpointIsDotcom = true → c.lastRepo = some lr →
      c.pathBeingIndexed ≠ some (activePath c wf) → lr.loadResult = false →
      getEntry c.repoState (activePath c wf) = some st → st.isGit = true →
      statusOf c wf =
        [⟨activePath c wf,
          [{ state := if st.indexable then CGState.unconsented
                      else CGState.noMatch }]⟩]) := by
  refine ⟨fun hdot => ?_, fun hdot hlr => ?_, fun lr hdot hlr hpbi => ?_,
    fun lr hdot hlr hpbi hload => ?_, fun lr hdot hlr hpbi hload hentry => ?_,
    fun lr st hdot hlr hpbi hload hentry hgit => ?_⟩
  · simp [statusOf, hdot]
  · simp [statusOf, hdot, hlr]
  · simp [statusOf, hdot, hlr, hpbi]
  · simp [statusOf, hdot, hlr, hpbi, hload]
  · rcases hentry with h | ⟨st, hentry, hgit⟩ <;>
      simp [statusOf, hdot, hlr, hpbi, hload, *]
  · simp [statusOf, hdot, hlr, hpbi, hload, hentry, hgit]

/-- C3 witness: a dotcom endpoint where `/repo` failed to load and is
cached as git but not indexable reports the `no-match` state (priority
case 6). -/
theorem status_priority_order_witness :
    statusOf { endpointIsDotcom := true,
               lastRepo := some { path := "/repo", loadResult := false },
               repoState := [("/repo",
                 { indexable := false, isGit := true, hasIndex := false })] }
        none
      = [⟨"/repo", [{ state := CGState.noMatch }]⟩] := by
  have h := (status_priority_order
      { endpointIsDotcom := true,
        lastRepo := some { path := "/repo", loadResult := false },
        repoState := [("/repo",
          { indexable := false, isGit := true, hasIndex := false })] }
      none).2.2.2.2.2
    { path := "/repo", loadResult := false }
    { indexable := false, isGit := true, hasIndex := false }
    rfl rfl (by decide) rfl rfl rfl
  rw [h]
  decide

/-- C6: the invariant "every `repoState` entry with `isGit = false`
also has `indexable = false`" is preserved by every controller
operation: along any reachable sequence of `setAccessToken`,
`getService`, `load`, `eagerlyLoad` (also run as the deferred
post-index reload), `index`, notification-handling, and `query` steps
from a state satisfying it, no entry with `isGit = false` and
`indexable = true` is ever created. -/
theorem repoInv_reachable (c c2 : Ctrl) (h0 : RepoInv c)
    (hs : Relation.ReflTransGen Step c c2) : RepoInv c2 := by
  induction hs with
  | refl => exact h0
  | tail _ hstep ih => exact step_preserves_repoInv hstep ih

/-- C6 witness: after a fresh controller performs a failing load of a
non-git `/repo` (one `eager` step), the invariant still holds. -/
theorem repoInv_reachable_witness :
    RepoInv (eagerlyLoad svcReady "/repo" (.ok ())
      (.error "fatal: /repo does not appear to be a git repository")).ctrl :=
  repoInv_reachable svcReady _
    (by intro p st hmem hgit; simp [svcReady] at hmem)
    (Relation.ReflTransGen.single (Step.eager svcReady "/repo" (.ok ())
      (.error "fatal: /repo does not appear to be a git repository")))
